import Mathlib

/-!
# Shallow embedding of `chinese_holiday.py`

This file embeds the data model and operations of the repository's single
source file `chinese_holiday.py` and proves properties of them.

Conventions of the embedding:

* Python `datetime` values (always at midnight here) are triples
  `(year, month, day)` of naturals; `datetime` comparison on such values is
  lexicographic comparison of the triples.
* `datetime.strptime` with the formats `"%Y-%m-%d"` and `"%Y年%m月%d日"` is
  embedded as an explicit parser (`%Y` = exactly four digits, `%m`/`%d` = one or
  two digits, as in CPython's `_strptime`), including the calendar-validity
  check performed by the `datetime` constructor.  `strftime` zero-pads.
* Python exceptions are `Except String`; a raised exception is `.error`.
  An `assert` failure is the error `"AssertionError"`.
* The `json` library (`json.dump` / `json.load`) is an external collaborator:
  the cache file is modelled as holding its decoded JSON document (`JValue`),
  with `dump` followed by `load` the identity on documents — files whose text
  fails to decode are the `.error` case of the file content.  Python tuples and
  lists both serialize to JSON arrays and are both modelled as `.jarr`.
* `re` pattern matching is embedded by hand per pattern, with the backtracking
  semantics of the Python `re` engine (greedy quantifiers, leftmost match,
  non-overlapping `finditer`/`findall`), restricted to ASCII digits for `\d`.
-/

namespace ChineseHoliday

/-! ## Dates -/

/-- A calendar date `(year, month, day)`; stands for the Python `datetime`
objects used by the program (all at midnight). -/
structure Date where
  y : Nat
  m : Nat
  d : Nat
deriving Repr, DecidableEq

/-- Gregorian leap year, as in Python's `calendar`/`datetime`. -/
def isLeap (y : Nat) : Bool :=
  (y % 4 == 0 && y % 100 != 0) || (y % 400 == 0)

/-- Days in a month, as validated by the `datetime` constructor. -/
def daysInMonth (y m : Nat) : Nat :=
  if m == 2 then (if isLeap y then 29 else 28)
  else if m == 4 || m == 6 || m == 9 || m == 11 then 30
  else 31

/-- The validity check the `datetime` constructor performs (`MINYEAR = 1`,
`MAXYEAR = 9999`). -/
def validDate (dt : Date) : Bool :=
  1 ≤ dt.y && dt.y ≤ 9999 && 1 ≤ dt.m && dt.m ≤ 12 && 1 ≤ dt.d && dt.d ≤ daysInMonth dt.y dt.m

/-- Days strictly before January 1 of year `y` in the proleptic Gregorian
calendar (as in `datetime.date._days_before_year`). -/
def daysBeforeYear (y : Nat) : Nat :=
  365 * (y - 1) + (y - 1) / 4 - (y - 1) / 100 + (y - 1) / 400

/-- Days in year `y` strictly before month `m` (1-based). -/
def daysBeforeMonth (y m : Nat) : Nat :=
  (List.range (m - 1)).foldl (fun acc i => acc + daysInMonth y (i + 1)) 0

/-- `datetime.toordinal()`: day number with `0001-01-01` ↦ `1`. -/
def toOrdinal (dt : Date) : Nat :=
  daysBeforeYear dt.y + daysBeforeMonth dt.y dt.m + dt.d

/-- `datetime.weekday()`: Monday = 0 … Sunday = 6 (`0001-01-01` is a Monday). -/
def weekday (dt : Date) : Nat :=
  (toOrdinal dt + 6) % 7

/-- `datetime` comparison `a <= b` (midnight values compare as their dates). -/
def dateLe (a b : Date) : Bool :=
  if a.y != b.y then a.y ≤ b.y
  else if a.m != b.m then a.m ≤ b.m
  else a.d ≤ b.d

/-! ## Digit strings -/

def digitVal (c : Char) : Nat := c.toNat - '0'.toNat

def digitsToNat (ds : List Char) : Nat :=
  ds.foldl (fun acc c => acc * 10 + digitVal c) 0

/-- Take up to `max` leading ASCII digits (the `re`/`_strptime` digit class,
restricted to ASCII as used by the notices). -/
def takeDigits : Nat → List Char → List Char × List Char
  | 0, cs => ([], cs)
  | _ + 1, [] => ([], [])
  | k + 1, c :: cs =>
    if c.isDigit then
      let (ds, r) := takeDigits k cs
      (c :: ds, r)
    else ([], c :: cs)

/-- Exactly `n` leading digits, else fail. -/
def exactDigits (n : Nat) (cs : List Char) : Option (Nat × List Char) :=
  let (ds, r) := takeDigits n cs
  if ds.length == n then some (digitsToNat ds, r) else none

/-- One or two leading digits (greedy), else fail. -/
def oneTwoDigits (cs : List Char) : Option (Nat × List Char) :=
  let (ds, r) := takeDigits 2 cs
  if ds.length == 0 then none else some (digitsToNat ds, r)

def expectChar (c : Char) : List Char → Option (List Char)
  | c' :: cs => if c' == c then some cs else none
  | [] => none

/-! ## `strptime` / `strftime` -/

/-- `datetime.strptime(s, "%Y-%m-%d")`: four year digits, `-`, one or two
month digits, `-`, one or two day digits, whole string consumed, then the
`datetime` constructor's validity check.  `none` is a raised `ValueError`. -/
def strptimeIso (s : String) : Option Date := do
  let cs := s.data
  let (y, cs) ← exactDigits 4 cs
  let cs ← expectChar '-' cs
  let (m, cs) ← oneTwoDigits cs
  let cs ← expectChar '-' cs
  let (d, cs) ← oneTwoDigits cs
  guard cs.isEmpty
  let dt : Date := ⟨y, m, d⟩
  guard (validDate dt)
  pure dt

/-- `datetime.strptime(s, "%Y年%m月%d日")`. -/
def strptimeCn (s : String) : Option Date := do
  let cs := s.data
  let (y, cs) ← exactDigits 4 cs
  let cs ← expectChar '年' cs
  let (m, cs) ← oneTwoDigits cs
  let cs ← expectChar '月' cs
  let (d, cs) ← oneTwoDigits cs
  let cs ← expectChar '日' cs
  guard cs.isEmpty
  let dt : Date := ⟨y, m, d⟩
  guard (validDate dt)
  pure dt

/-- Zero-pad a natural to `w` digits. -/
def padNum (w n : Nat) : String :=
  let s := toString n
  let pad := w - s.length
  String.mk (List.replicate pad '0') ++ s

/-- `datetime.strftime("%Y-%m-%d")`. -/
def strftimeIso (dt : Date) : String :=
  padNum 4 dt.y ++ "-" ++ padNum 2 dt.m ++ "-" ++ padNum 2 dt.d

/-- `datetime.strftime("%Y")` (years ≥ 1000; the program only ever handles
four-digit years). -/
def strftimeYear (dt : Date) : String :=
  padNum 4 dt.y

/-! ## JSON documents and the cache file

The cache file `holiday.json` is modelled by its decoded JSON document.
`FileContent` is the outcome of `json.load` on the file's text: `.error ()`
when the text fails to decode, `.ok v` when it decodes to document `v`.
`FileState` is `none` when the file does not exist (`os.path.exists` false).
Python `dict`s are insertion-ordered association lists. -/

/-- A decoded JSON document (the fragment the program stores: strings,
booleans, arrays, objects; Python tuples also dump to arrays). -/
inductive JValue where
  | jstr (s : String)
  | jbool (b : Bool)
  | jarr (xs : List JValue)
  | jobj (kvs : List (String × JValue))
deriving Repr

/-- Outcome of decoding the cache file's text. -/
abbrev FileContent := Except Unit JValue

/-- `none` = the cache file does not exist. -/
abbrev FileState := Option FileContent

/-- Python `dict.get(k, None)` on an insertion-ordered dict. -/
def dictGet (k : String) : List (String × JValue) → Option JValue
  | [] => none
  | (k', v) :: rest => if k' == k then some v else dictGet k rest

/-- Python `d[k] = v`: overwrite in place, else append (insertion order). -/
def dictSet (k : String) (v : JValue) : List (String × JValue) → List (String × JValue)
  | [] => [(k, v)]
  | (k', v') :: rest => if k' == k then (k', v) :: rest else (k', v') :: dictSet k v rest

/-- Python truthiness of a stored JSON value (`not work` in `is_holiday`). -/
def pyTruth : JValue → Bool
  | .jstr s => s ≠ ""
  | .jbool b => b
  | .jarr xs => !xs.isEmpty
  | .jobj kvs => !kvs.isEmpty

/-- One parsed holiday line `(from_date, to_date, need_work)`. -/
abbrev HolidayTriple := String × String × Bool

/-- A holiday triple as it sits in the JSON document (tuples and lists both
dump to arrays). -/
def tripToJ (t : HolidayTriple) : JValue :=
  .jarr [.jstr t.1, .jstr t.2.1, .jbool t.2.2]

def tripsToJ (ts : List HolidayTriple) : JValue :=
  .jarr (ts.map tripToJ)

/-- A typed holiday store, year → parsed lines (`HolidayStore`). -/
abbrev Store := List (String × List HolidayTriple)

def storeToJ (s : Store) : List (String × JValue) :=
  s.map (fun yts => (yts.1, tripsToJ yts.2))

/-- Decoding one stored line back from JSON. -/
def jToTrip : JValue → Option HolidayTriple
  | .jarr [.jstr f, .jstr t, .jbool w] => some (f, t, w)
  | _ => none

def jToTrips : List JValue → Option (List HolidayTriple)
  | [] => some []
  | x :: xs => do
    let t ← jToTrip x
    let ts ← jToTrips xs
    pure (t :: ts)

def jToStoreAux : List (String × JValue) → Option Store
  | [] => some []
  | (y, v) :: rest =>
    match v with
    | .jarr xs => do
      let ts ← jToTrips xs
      let s ← jToStoreAux rest
      pure ((y, ts) :: s)
    | _ => none

def storeOfJ (kvs : List (String × JValue)) : Option Store :=
  jToStoreAux kvs

/-! ## `save_all_holiday` / `read_all_holiday` -/

/-- `save_all_holiday(all_holiday)`: `json.dump` the dict to the file; the
resulting file text decodes back to the same document (`json` collaborator
contract), so the new file content is `.ok` of the dict. -/
def save_all_holiday (all_holiday : List (String × JValue)) : FileContent :=
  .ok (.jobj all_holiday)

/-- `read_all_holiday()`: `json.load` the file; on any exception use `{}`;
if the result is not a `dict`, return `{}`; else return it. -/
def read_all_holiday (content : FileContent) : List (String × JValue) :=
  let all_holiday : JValue :=
    match content with
    | .error _ => .jobj []
    | .ok v => v
  match all_holiday with
  | .jobj kvs => kvs
  | _ => []

/-! ## `get_holiday_data` -/

/-- The external search-and-parse pipeline
`parse_holiday_info(search_notice_url(year))`: either a raised exception, or
the pair `(parsed_year, holiday_data)`. -/
abbrev FetchParse := Except String (String × List HolidayTriple)

/-- Refresh branch of `get_holiday_data` (the body of
`if holiday_data is None or force_refresh:`).  `all_holiday` is the local
variable, `none` when it was never assigned (the file did not exist);
assigning into an unbound local raises `UnboundLocalError`. -/
def refreshHoliday (year : String) (fs : FileState)
    (all_holiday : Option (List (String × JValue))) (fetchParse : FetchParse) :
    Except String JValue × FileState :=
  match fetchParse with
  | .error e => (.error e, fs)
  | .ok (parsed_year, holiday_data) =>
    if parsed_year != year || holiday_data.length == 0 then
      (.error "Can not parse holiday info.", fs)
    else
      match all_holiday with
      | none => (.error "UnboundLocalError", fs)
      | some all =>
        let all' := dictSet year (tripsToJ holiday_data) all
        (.ok (tripsToJ holiday_data), some (save_all_holiday all'))

/-- `get_holiday_data(year, force_refresh)`.  Returns the outcome (the year's
holiday data, or the raised exception) together with the cache file's final
state. -/
def get_holiday_data (year : String) (force_refresh : Bool) (fs : FileState)
    (fetchParse : FetchParse) : Except String JValue × FileState :=
  let lookedUp : Option (List (String × JValue)) × Option JValue :=
    match fs with
    | some content =>
      let all_holiday := read_all_holiday content
      (some all_holiday, dictGet year all_holiday)
    | none => (none, none)
  match lookedUp.2 with
  | some v =>
    if force_refresh then refreshHoliday year fs lookedUp.1 fetchParse
    else (.ok v, fs)
  | none => refreshHoliday year fs lookedUp.1 fetchParse

/-! ## `is_holiday` -/

/-- `from_date, to_date, work = holiday_line` followed by the two `strptime`
calls: needs a 3-element array whose first two entries are valid ISO date
strings; anything else raises. -/
def unpackLine : JValue → Except String (Date × Date × JValue)
  | .jarr [f, t, w] =>
    match f, t with
    | .jstr fs, .jstr ts =>
      match strptimeIso fs, strptimeIso ts with
      | some fd, some td => .ok (fd, td, w)
      | _, _ => .error "ValueError"
    | _, _ => .error "TypeError"
  | _ => .error "ValueError"

/-- The interval scan of `is_holiday`: first line whose inclusive range
contains the date decides; `some b` = early `return b`, `none` = the loop
fell through. -/
def holidayScan (dt : Date) : List JValue → Except String (Option Bool)
  | [] => .ok none
  | line :: rest =>
    match unpackLine line with
    | .error e => .error e
    | .ok (fd, td, w) =>
      if dateLe fd dt && dateLe dt td then .ok (some (!pyTruth w))
      else holidayScan dt rest

/-- `is_holiday(date_time)` for a string argument.  Returns the outcome and
the cache file's final state. -/
def is_holiday (date_time : String) (fs : FileState) (fetchParse : FetchParse) :
    Except String Bool × FileState :=
  match strptimeIso date_time with
  | none => (.error "ValueError", fs)
  | some dt =>
    let year := strftimeYear dt
    let (r, fs') := get_holiday_data year false fs fetchParse
    match r with
    | .error e => (.error e, fs')
    | .ok holiday_lines =>
      match holiday_lines with
      | .jarr lines =>
        if lines.length == 0 then (.error "AssertionError", fs')
        else
          match holidayScan dt lines with
          | .error e => (.error e, fs')
          | .ok (some b) => (.ok b, fs')
          | .ok none =>
            if weekday dt == 5 || weekday dt == 6 then (.ok true, fs')
            else (.ok false, fs')
      | _ => (.error "AssertionError", fs')

/-! ## Regex embedding

Each pattern of the source is embedded by hand with the `re` engine's
semantics: greedy quantifiers with backtracking (a continuation-passing
encoding where every choice point falls back through `optOr`), leftmost
non-overlapping matches for `finditer`/`findall`, `\d` as ASCII digits.
Scanning loops carry a fuel argument (`≥` input length suffices: every step
consumes at least one character). -/

/-- Backtracking alternative: try `a`, on failure `b`. -/
def optOr {α : Type} (a : Option α) (b : Unit → Option α) : Option α :=
  match a with
  | some x => some x
  | none => b ()

/-- `\d{1,2}` (greedy; the continuation gets the consumed digits and rest). -/
def mDigits12 {α : Type} (cs : List Char) (k : List Char → List Char → Option α) : Option α :=
  match cs with
  | a :: b :: rest =>
    if a.isDigit then
      if b.isDigit then optOr (k [a, b] rest) (fun _ => k [a] (b :: rest))
      else k [a] (b :: rest)
    else none
  | [a] => if a.isDigit then k [a] [] else none
  | [] => none

/-- A literal character. -/
def mChar {α : Type} (c : Char) (cs : List Char) (k : List Char → Option α) : Option α :=
  match cs with
  | a :: rest => if a == c then k rest else none
  | [] => none

/-- A literal character sequence. -/
def mLit {α : Type} : List Char → List Char → (List Char → Option α) → Option α
  | [], cs, k => k cs
  | l :: ls, cs, k => mChar l cs (fun rest => mLit ls rest k)

/-- `(?:\d{4}年)?` (greedy option). -/
def mYear4Opt {α : Type} (cs : List Char) (k : List Char → List Char → Option α) : Option α :=
  match cs with
  | a :: b :: c :: d :: e :: rest =>
    if a.isDigit && b.isDigit && c.isDigit && d.isDigit && e == '年' then
      optOr (k [a, b, c, d, '年'] rest) (fun _ => k [] (a :: b :: c :: d :: e :: rest))
    else k [] (a :: b :: c :: d :: e :: rest)
  | cs => k [] cs

/-- `(?:\d{1,2}月)?` (greedy option). -/
def mMonthOpt {α : Type} (cs : List Char) (k : List Char → List Char → Option α) : Option α :=
  optOr
    (mDigits12 cs (fun mo rest =>
      mChar '月' rest (fun rest2 => k (mo ++ ['月']) rest2)))
    (fun _ => k [] cs)

/-! ### `reg_holiday_occur`:
`((?:\d{4}年)?\d{1,2}月\d{1,2}日)(?:至((?:\d{4}年)?(?:\d{1,2}月)?\d{1,2}日))?放假` -/

/-- Group 1, the start date: `(?:\d{4}年)?\d{1,2}月\d{1,2}日`. -/
def mStartDate {α : Type} (cs : List Char) (k : List Char → List Char → Option α) : Option α :=
  mYear4Opt cs (fun y rest =>
    mDigits12 rest (fun mo rest2 =>
      mChar '月' rest2 (fun rest3 =>
        mDigits12 rest3 (fun dd rest4 =>
          mChar '日' rest4 (fun rest5 =>
            k (y ++ mo ++ ['月'] ++ dd ++ ['日']) rest5)))))

/-- Group 2, the end date: `(?:\d{4}年)?(?:\d{1,2}月)?\d{1,2}日`. -/
def mEndDate {α : Type} (cs : List Char) (k : List Char → List Char → Option α) : Option α :=
  mYear4Opt cs (fun y rest =>
    mMonthOpt rest (fun mo rest2 =>
      mDigits12 rest2 (fun dd rest3 =>
        mChar '日' rest3 (fun rest4 =>
          k (y ++ mo ++ dd ++ ['日']) rest4))))

/-- One attempt of `reg_holiday_occur` anchored at the current position:
yields `((group1, group2), rest)` on success. -/
def matchHolidayOccurAt (cs : List Char) : Option ((String × Option String) × List Char) :=
  mStartDate cs (fun g1 rest =>
    optOr
      (mChar '至' rest (fun rest2 =>
        mEndDate rest2 (fun g2 rest3 =>
          mLit ['放', '假'] rest3 (fun rest4 =>
            some ((String.mk g1, some (String.mk g2)), rest4)))))
      (fun _ =>
        mLit ['放', '假'] rest (fun rest4 => some ((String.mk g1, none), rest4))))

/-- Python iterable unpacking `a, b, c = xs` of a tuple of optional-string
groups: raises `ValueError` unless `xs` has exactly three elements. -/
def pyUnpack3 (gs : List (Option String)) :
    Except String (Option String × Option String × Option String) :=
  match gs with
  | [a, b, c] => .ok (a, b, c)
  | _ => .error "ValueError"

/-- The `for holiday_occur in reg_holiday_occur.finditer(holiday_line)` loop.
`reg_holiday_occur` has two capturing groups, but the body starts with
`first_holiday, last_holiday, count_day = holiday_occur.groups()`, a
three-target unpacking — so every match raises `ValueError` and the rest of
the body never executes (its `.ok` branch is unreachable, see
`pyUnpack3_pair`). -/
def holidayOccursFold (fuel : Nat) (cs : List Char) (acc : List HolidayTriple) :
    Except String (List HolidayTriple) :=
  match fuel, cs with
  | _, [] => .ok acc
  | 0, _ => .ok acc
  | fuel + 1, c :: rest =>
    match matchHolidayOccurAt (c :: rest) with
    | some ((g1, g2), after) =>
      match pyUnpack3 [some g1, g2] with
      | .error e => .error e
      | .ok _ => holidayOccursFold fuel after acc
    | none => holidayOccursFold fuel rest acc

/-! ### The compensating-workday patterns:
outer `((?:(?:(?:\d{4}年)?\d{1,2}月)?\d{1,2}日、?)+)上班。`,
inner `findall` of `(?:(?:\d{4}年)?\d{1,2}月|(?<=、))\d{1,2}日`. -/

/-- One repetition unit `(?:(?:\d{4}年)?\d{1,2}月)?\d{1,2}日、?`. -/
def mDayIter {α : Type} (cs : List Char) (k : List Char → List Char → Option α) : Option α :=
  let afterMonth : List Char → List Char → Option α := fun pre rest3 =>
    mDigits12 rest3 (fun dd rest4 =>
      mChar '日' rest4 (fun rest5 =>
        optOr (mChar '、' rest5 (fun rest6 => k (pre ++ dd ++ ['日', '、']) rest6))
          (fun _ => k (pre ++ dd ++ ['日']) rest5)))
  optOr
    (mYear4Opt cs (fun y rest =>
      mDigits12 rest (fun mo rest2 =>
        mChar '月' rest2 (fun rest3 => afterMonth (y ++ mo ++ ['月']) rest3))))
    (fun _ => afterMonth [] cs)

/-- The greedy `+` over `mDayIter` (more repetitions first, backtrack to
fewer; at least one). -/
def mDayRun {α : Type} (fuel : Nat) (cs : List Char) (k : List Char → List Char → Option α) :
    Option α :=
  mDayIter cs (fun cap rest =>
    match fuel with
    | 0 => k cap rest
    | fuel + 1 =>
      optOr (mDayRun fuel rest (fun cap2 rest2 => k (cap ++ cap2) rest2))
        (fun _ => k cap rest))

/-- The outer workday pattern anchored at the current position: yields
`(group1, rest)`. -/
def matchWorkOccurAt (cs : List Char) : Option (String × List Char) :=
  mDayRun cs.length cs (fun g1 rest =>
    mLit ['上', '班', '。'] rest (fun rest2 => some (String.mk g1, rest2)))

/-- The inner pattern `(?:(?:\d{4}年)?\d{1,2}月|(?<=、))\d{1,2}日` anchored at
the current position; `prev` is the character just before it (for the
look-behind). -/
def matchDayTokenAt (prev : Option Char) (cs : List Char) : Option (String × List Char) :=
  optOr
    (mYear4Opt cs (fun y rest =>
      mDigits12 rest (fun mo rest2 =>
        mChar '月' rest2 (fun rest3 =>
          mDigits12 rest3 (fun dd rest4 =>
            mChar '日' rest4 (fun rest5 =>
              some (String.mk (y ++ mo ++ ['月'] ++ dd ++ ['日']), rest5)))))))
    (fun _ =>
      if prev == some '、' then
        mDigits12 cs (fun dd rest =>
          mChar '日' rest (fun rest2 => some (String.mk (dd ++ ['日']), rest2)))
      else none)

/-- `re.findall` of the inner pattern over the captured run. -/
def findallDayTokens (fuel : Nat) (prev : Option Char) (cs : List Char) : List String :=
  match fuel, cs with
  | _, [] => []
  | 0, _ => []
  | fuel + 1, c :: rest =>
    match matchDayTokenAt prev (c :: rest) with
    | some (tok, after) => tok :: findallDayTokens fuel tok.data.getLast? after
    | none => findallDayTokens fuel (some c) rest

/-- `before_workday[:before_workday.index("月") + 1]`: the prefix of the
previous completed mention up to and including its `月`; `none` is the
`ValueError` raised by `index` when there is no `月`. -/
def beforeUpToMonth (before : String) : Option String :=
  if before.data.contains '月' then
    some (String.mk (before.data.takeWhile (fun c => c != '月') ++ ['月']))
  else none

/-- The stateful inner loop `for workday in workdays:` — missing `月` is
patched from `before_workday`'s prefix up to its `月` (which includes the
previous year), missing `年` from the notice year; `before_workday` is then
updated to the completed mention. -/
def workdayFoldAux (year : String) (before : String) :
    List String → Except String (List HolidayTriple)
  | [] => .ok []
  | workday :: rest =>
    let step1 : Except String String :=
      if workday.data.contains '月' then .ok workday
      else
        match beforeUpToMonth before with
        | some pre => .ok (pre ++ workday)
        | none => .error "ValueError"
    match step1 with
    | .error e => .error e
    | .ok w1 =>
      let w2 := if w1.data.contains '年' then w1 else year ++ "年" ++ w1
      match strptimeCn w2 with
      | none => .error "ValueError"
      | some dt =>
        match workdayFoldAux year w2 rest with
        | .error e => .error e
        | .ok ts => .ok ((strftimeIso dt, strftimeIso dt, true) :: ts)

/-- The `for workday_occur in re.finditer(...)` loop over one line. -/
def workOccursFold (year : String) (fuel : Nat) (cs : List Char) :
    Except String (List HolidayTriple) :=
  match fuel, cs with
  | _, [] => .ok []
  | 0, _ => .ok []
  | fuel + 1, c :: rest =>
    match matchWorkOccurAt (c :: rest) with
    | some (g1, after) =>
      let workdays := findallDayTokens g1.data.length none g1.data
      match workdayFoldAux year "" workdays with
      | .error e => .error e
      | .ok ts =>
        match workOccursFold year fuel after with
        | .error e => .error e
        | .ok ts2 => .ok (ts ++ ts2)
    | none => workOccursFold year fuel rest

/-! ### `fix_line`: `P_LINE_FIX = re.compile(r"[(（][^)）]+.")`, `sub("", line)` -/

/-- One attempt of `P_LINE_FIX` anchored at the current position: an opening
parenthesis, a nonempty greedy run of non-closing-parenthesis characters,
then one more character (lines come from `str.split()` and so contain no
newline, so `.` accepts any character; the greedy run gives one character
back when it reaches the end of the line). -/
def lineFixMatchAt : List Char → Option (List Char)
  | [] => none
  | c :: rest =>
    if c == '(' || c == '（' then
      let run := rest.takeWhile (fun x => x != ')' && x != '）')
      let rem := rest.drop run.length
      if run.isEmpty then none
      else
        match rem with
        | _ :: rem' => some rem'
        | [] => if 2 ≤ run.length then some [] else none
    else none

def fixLineAux : Nat → List Char → List Char
  | _, [] => []
  | 0, cs => cs
  | fuel + 1, c :: rest =>
    match lineFixMatchAt (c :: rest) with
    | some rem => fixLineAux fuel rem
    | none => c :: fixLineAux fuel rest

/-- `fix_line(line)`: delete every parenthetical annotation. -/
def fix_line (s : String) : String :=
  String.mk (fixLineAux s.data.length s.data)

/-- The per-line body of `parse_holiday_info`'s extraction loop, for a notice
whose title yielded `year`: `fix_line`, then the holiday-interval loop, then
the compensating-workday loop, appending in that order. -/
def parseLine (year : String) (line : String) : Except String (List HolidayTriple) :=
  let fixed := fix_line line
  match holidayOccursFold fixed.data.length fixed.data [] with
  | .error e => .error e
  | .ok hs =>
    match workOccursFold year fixed.data.length fixed.data with
    | .error e => .error e
    | .ok ws => .ok (hs ++ ws)

/-! ## Derived notions used in the statements -/

/-- The cache-lookup phase of `get_holiday_data` (the value of its local
`holiday_data` after the `os.path.exists` block). -/
def cacheLookup (year : String) (fs : FileState) : Option JValue :=
  match fs with
  | some content => dictGet year (read_all_holiday content)
  | none => none

/-- Both date strings of a stored line parse as ISO dates (lines written by
the program itself always do, being `strftime` output). -/
def validTriple (t : HolidayTriple) : Bool :=
  (strptimeIso t.1).isSome && (strptimeIso t.2.1).isSome

/-- The date falls in the stored line's inclusive `[from_date, to_date]`
range (the loop condition of `is_holiday`). -/
def tripContains (t : HolidayTriple) (dt : Date) : Bool :=
  match strptimeIso t.1, strptimeIso t.2.1 with
  | some fd, some td => dateLe fd dt && dateLe dt td
  | _, _ => false

/-! ## Structured day mentions (for the workday-run inheritance claims)

A token produced by the inner `findall` pattern
`(?:(?:\d{4}年)?\d{1,2}月|(?<=、))\d{1,2}日` is an optional four-digit year
(only ever together with a month), an optional one-or-two-digit month, and a
one-or-two-digit day. -/

structure DayMention where
  yearPart : Option String
  monthPart : Option String
  dayPart : String

/-- The token text of a day mention, e.g. `2021年1月19日`, `1月19日`, `26日`. -/
def renderMention (m : DayMention) : String :=
  (match m.yearPart with
   | some y => y ++ "年"
   | none => "") ++
  (match m.monthPart with
   | some mo => mo ++ "月"
   | none => "") ++
  m.dayPart ++ "日"

/-- A nonempty all-digit string of length between `lo` and `hi`. -/
def digitStr (s : String) (lo hi : Nat) : Prop :=
  lo ≤ s.data.length ∧ s.data.length ≤ hi ∧ ∀ c ∈ s.data, c.isDigit = true

/-- Well-formedness of a day mention, as guaranteed by the `findall`
pattern: year four digits, month and day one or two digits, and a year only
ever occurs together with a month. -/
def mentionWf (m : DayMention) : Prop :=
  (∀ y, m.yearPart = some y → digitStr y 4 4) ∧
  (∀ mo, m.monthPart = some mo → digitStr mo 1 2) ∧
  digitStr m.dayPart 1 2 ∧
  (m.yearPart.isSome → m.monthPart.isSome)

/-- Reference fold for the amended inheritance rule, written from the
amended claim's words: a mention with a month uses its own year, defaulting
to the notice year when omitted; a mention without a month inherits the
year-and-month pair of the preceding completed mention (so also its year);
with no preceding mention it fails.  Yields the `(year, month, day)`
component strings of each mention. -/
def inheritYM (noticeYear : String) :
    Option (String × String) → List DayMention → Option (List (String × String × String))
  | _, [] => some []
  | prev, m :: rest =>
    let ym? : Option (String × String) :=
      match m.monthPart with
      | some mo => some (m.yearPart.getD noticeYear, mo)
      | none => prev
    match ym? with
    | none => none
    | some ym =>
      (inheritYM noticeYear (some ym) rest).map (fun l => (ym.1, ym.2, m.dayPart) :: l)

/-- The date named by the `(year, month, day)` component strings. -/
def ymdDate (x : String × String × String) : Date :=
  ⟨digitsToNat x.1.data, digitsToNat x.2.1.data, digitsToNat x.2.2.data⟩

/-- The single-day workday triple the inner loop emits for those components. -/
def workTripOf (x : String × String × String) : HolidayTriple :=
  (strftimeIso (ymdDate x), strftimeIso (ymdDate x), true)

/-! ## Helper lemmas -/

/-- Unpacking a two-element `groups()` tuple into three targets always
raises `ValueError`. -/
lemma pyUnpack3_pair (a b : Option String) : pyUnpack3 [a, b] = .error "ValueError" := rfl

/-- Whenever the stateful workday loop succeeds it emits exactly one triple
per day token, each a single-day `is_workday = true` interval. -/
lemma workdayFoldAux_shape (year : String) :
    ∀ (workdays : List String) (before : String) (res : List HolidayTriple),
      workdayFoldAux year before workdays = .ok res →
      res.length = workdays.length ∧ ∀ t ∈ res, t.1 = t.2.1 ∧ t.2.2 = true := by
  intro workdays
  induction workdays with
  | nil =>
    intro before res h
    simp only [workdayFoldAux, Except.ok.injEq] at h
    subst h
    simp
  | cons w rest ih =>
    intro before res h
    simp only [workdayFoldAux] at h
    split at h
    next => exact absurd h (by simp)
    next w1 heq =>
      split at h
      next => exact absurd h (by simp)
      next dt hdt =>
        split at h
        next => exact absurd h (by simp)
        next ts hts =>
          obtain ⟨hlen, hall⟩ := ih _ _ hts
          simp only [Except.ok.injEq] at h
          subst h
          refine ⟨by simp [hlen], ?_⟩
          intro t ht
          rcases List.mem_cons.mp ht with h1 | h1
          · subst h1; exact ⟨rfl, rfl⟩
          · exact hall t h1

lemma jToTrip_tripToJ (t : HolidayTriple) : jToTrip (tripToJ t) = some t := rfl

lemma jToTrips_mapTripToJ (ts : List HolidayTriple) : jToTrips (ts.map tripToJ) = some ts := by
  induction ts with
  | nil => rfl
  | cons t ts ih => simp [jToTrips, jToTrip_tripToJ, ih]

lemma jToStoreAux_storeToJ (s : Store) : jToStoreAux (storeToJ s) = some s := by
  induction s with
  | nil => rfl
  | cons yts rest ih =>
    obtain ⟨y, ts⟩ := yts
    simp [storeToJ, jToStoreAux, tripsToJ, jToTrips_mapTripToJ] at *
    simp [ih]

/-! ## Claim theorems -/

/-- C1: the holiday-interval extraction of `parse_holiday_info` on the line
`10月1日至10月8日放假` with notice year `2020` does NOT yield the interval
`("2020-10-01", "2020-10-08", false)`: the pattern does match, with group 1
`10月1日` and group 2 `10月8日`, but the loop body's three-target unpacking
`first_holiday, last_holiday, count_day = holiday_occur.groups()` of the
two-element groups tuple raises `ValueError`, so every `放假` line makes the
parse raise instead of producing intervals (contradicting the format
documented in `get_holiday_data`'s docstring). -/
theorem C1_holiday_extraction_raises :
    matchHolidayOccurAt "10月1日至10月8日放假".data
      = some (("10月1日", some "10月8日"), []) ∧
    parseLine "2020" "10月1日至10月8日放假" = .error "ValueError" :=
  ⟨rfl, rfl⟩

/-- C2: with no cache file, even a successful locate-and-parse does not
return the year's intervals and persist them — `get_holiday_data` raises
`UnboundLocalError`, because its local `all_holiday` is only assigned inside
the `os.path.exists` branch yet is written to (`all_holiday[year] = ...`)
in the refresh branch.  The store is not created. -/
theorem C2_missing_cache_raises :
    get_holiday_data "2020" false none
        (.ok ("2020", [("2020-10-01", "2020-10-08", false)]))
      = (.error "UnboundLocalError", none) :=
  rfl

/-- C3 counterexample: on the line `1月19日上班` (no trailing `。`) the
compensating-workday extraction yields nothing, not the claimed single-day
interval — the workday pattern requires the literal `上班。`. -/
theorem C3_counterexample :
    parseLine "2020" "1月19日上班" = .ok [] ∧
    ([] : List HolidayTriple) ≠ [("2020-01-19", "2020-01-19", true)] :=
  ⟨rfl, by decide⟩

/-- C3 (amended): on a line with the full literal `上班。`, e.g.
`1月19日上班。` with notice year `2020`, extraction yields
`("2020-01-19", "2020-01-19", true)`; and in general whenever the workday
loop succeeds it yields exactly one `is_workday = true` single-day interval
per mentioned day. -/
theorem C3_workday_extraction :
    parseLine "2020" "1月19日上班。" = .ok [("2020-01-19", "2020-01-19", true)] ∧
    ∀ (year before : String) (workdays : List String) (res : List HolidayTriple),
      workdayFoldAux year before workdays = .ok res →
      res.length = workdays.length ∧ ∀ t ∈ res, t.1 = t.2.1 ∧ t.2.2 = true :=
  ⟨rfl, fun year before workdays res h => workdayFoldAux_shape year workdays before res h⟩

/-- C3 witness: the general clause of `C3_workday_extraction` at the
one-token run `1月19日`. -/
theorem C3_workday_extraction_witness :
    ([("2020-01-19", "2020-01-19", true)] : List HolidayTriple).length
        = (["1月19日"] : List String).length ∧
    ∀ t ∈ ([("2020-01-19", "2020-01-19", true)] : List HolidayTriple),
      t.1 = t.2.1 ∧ t.2.2 = true :=
  C3_workday_extraction.2 "2020" "" ["1月19日"] [("2020-01-19", "2020-01-19", true)] rfl

/-- C8: a cache file whose text fails to decode, or decodes to a non-mapping,
makes `read_all_holiday` return the empty mapping; the function is total
(the decode exception is caught), so nothing is raised. -/
theorem C8_corrupt_cache_yields_empty (content : FileContent)
    (h : content = .error () ∨ ∀ kvs, content ≠ .ok (.jobj kvs)) :
    read_all_holiday content = [] := by
  match content with
  | .error e => rfl
  | .ok v =>
    cases h with
    | inl h => exact absurd h (by simp)
    | inr h =>
      match v with
      | .jstr s => rfl
      | .jbool b => rfl
      | .jarr xs => rfl
      | .jobj kvs => exact absurd rfl (h kvs)

/-- C8 witness: a file whose text does not decode. -/
theorem C8_corrupt_cache_yields_empty_witness :
    read_all_holiday (.error ()) = [] :=
  C8_corrupt_cache_yields_empty (.error ()) (Or.inl rfl)

/-- C9: saving any holiday store and re-reading the file yields the same
mapping back — every year's list of `(start, end, is_workday)` triples
decodes to a value equal to the original. -/
theorem C9_roundtrip (store : Store) :
    storeOfJ (read_all_holiday (save_all_holiday (storeToJ store))) = some store := by
  show jToStoreAux (storeToJ store) = some store
  exact jToStoreAux_storeToJ store

/-- C7: when the refresh branch runs (year not cached, or forced) and the
parsed notice has the wrong year or no intervals, `get_holiday_data` raises
and the cache file is left exactly as it was — the bad result is never
written. -/
theorem C7_bad_parse_not_cached (year : String) (force : Bool) (fs : FileState)
    (py : String) (data : List HolidayTriple)
    (hmiss : cacheLookup year fs = none ∨ force = true)
    (hbad : py ≠ year ∨ data = []) :
    get_holiday_data year force fs (.ok (py, data))
      = (.error "Can not parse holiday info.", fs) := by
  have hcond : (py != year || data.length == 0) = true := by
    cases hbad with
    | inl h => simp [bne_iff_ne, h]
    | inr h => simp [h]
  have href : ∀ ah, refreshHoliday year fs ah (.ok (py, data))
      = (.error "Can not parse holiday info.", fs) := by
    intro ah
    simp [refreshHoliday, hcond]
  cases fs with
  | none => simpa [get_holiday_data] using href none
  | some content =>
    cases hlk : dictGet year (read_all_holiday content) with
    | none => simp [get_holiday_data, hlk, href]
    | some v =>
      cases hmiss with
      | inl h => simp [cacheLookup, hlk] at h
      | inr h => simp [get_holiday_data, hlk, h, href]

/-- C7 witness: a cache holding only 2019, a request for 2021 whose notice
parses as 2020. -/
theorem C7_bad_parse_not_cached_witness :
    get_holiday_data "2021" false (some (.ok (.jobj [("2019", .jarr [])])))
        (.ok ("2020", [("2020-10-01", "2020-10-08", false)]))
      = (.error "Can not parse holiday info.", some (.ok (.jobj [("2019", .jarr [])]))) :=
  C7_bad_parse_not_cached "2021" false _ "2020" _ (Or.inl rfl) (Or.inl (by decide))

/-- C10: a cache file that maps the date's year to an EMPTY interval list is
a cache hit — `get_holiday_data` returns the empty list unchanged without
consulting the locator/parser (the outcome is the same for every
`fetchParse`) and without touching the file — and `is_holiday` on any date
of that year then fails its non-empty-list assertion, instead of falling
back to weekend logic.  The assertion is thus reachable from persisted
data. -/
theorem C10_empty_year_entry (s : String) (dt : Date) (kvs : List (String × JValue))
    (fp : FetchParse)
    (hs : strptimeIso s = some dt)
    (hkv : dictGet (strftimeYear dt) kvs = some (.jarr [])) :
    get_holiday_data (strftimeYear dt) false (some (.ok (.jobj kvs))) fp
      = (.ok (.jarr []), some (.ok (.jobj kvs))) ∧
    is_holiday s (some (.ok (.jobj kvs))) fp
      = (.error "AssertionError", some (.ok (.jobj kvs))) := by
  have hget : get_holiday_data (strftimeYear dt) false (some (.ok (.jobj kvs))) fp
      = (.ok (.jarr []), some (.ok (.jobj kvs))) := by
    simp [get_holiday_data, read_all_holiday, hkv]
  refine ⟨hget, ?_⟩
  simp [is_holiday, hs, hget]

/-- C10 witness: the year entry `"2020" ↦ []` and the date `2020-05-05`. -/
theorem C10_empty_year_entry_witness :
    get_holiday_data "2020" false (some (.ok (.jobj [("2020", .jarr [])]))) (.error "x")
      = (.ok (.jarr []), some (.ok (.jobj [("2020", .jarr [])]))) ∧
    is_holiday "2020-05-05" (some (.ok (.jobj [("2020", .jarr [])]))) (.error "x")
      = (.error "AssertionError", some (.ok (.jobj [("2020", .jarr [])]))) :=
  C10_empty_year_entry "2020-05-05" ⟨2020, 5, 5⟩ [("2020", .jarr [])] (.error "x") rfl rfl

/-- The interval scan over well-formed stored lines is the first-match
search: it returns `!is_workday` of the first containing line, `none` when
no line contains the date. -/
lemma holidayScan_eq_find (dt : Date) (lines : List HolidayTriple)
    (hv : ∀ t ∈ lines, validTriple t = true) :
    holidayScan dt (lines.map tripToJ)
      = .ok ((lines.find? (fun t => tripContains t dt)).map (fun t => !t.2.2)) := by
  induction lines with
  | nil => rfl
  | cons t rest ih =>
    have hvt : validTriple t = true := hv t (List.mem_cons_self t rest)
    obtain ⟨fd, hfd⟩ : ∃ fd, strptimeIso t.1 = some fd := by
      cases h : strptimeIso t.1
      · simp [validTriple, h] at hvt
      · exact ⟨_, rfl⟩
    obtain ⟨td, htd⟩ : ∃ td, strptimeIso t.2.1 = some td := by
      cases h : strptimeIso t.2.1
      · simp [validTriple, h] at hvt
      · exact ⟨_, rfl⟩
    have hcont : tripContains t dt = (dateLe fd dt && dateLe dt td) := by
      simp [tripContains, hfd, htd]
    have ihr := ih (fun x hx => hv x (List.mem_cons_of_mem t hx))
    cases hc : dateLe fd dt && dateLe dt td with
    | true =>
      simp [holidayScan, unpackLine, tripToJ, hfd, htd, hc, List.find?, hcont, pyTruth]
    | false =>
      simp [holidayScan, unpackLine, tripToJ, hfd, htd, hc, List.find?, hcont, ihr]

/-- C5: for a date whose year is cached, when some stored interval's
inclusive `[start, end]` range contains the date, `is_holiday` returns the
negation of the `is_workday` flag of the FIRST containing interval in
stored order, later overlapping intervals notwithstanding, and leaves the
cache untouched. -/
theorem C5_first_interval_decides (s : String) (dt : Date) (kvs : List (String × JValue))
    (fp : FetchParse) (lines : List HolidayTriple) (t0 : HolidayTriple)
    (hs : strptimeIso s = some dt)
    (hkv : dictGet (strftimeYear dt) kvs = some (tripsToJ lines))
    (hv : ∀ t ∈ lines, validTriple t = true)
    (hfind : lines.find? (fun t => tripContains t dt) = some t0) :
    is_holiday s (some (.ok (.jobj kvs))) fp
      = (.ok (!t0.2.2), some (.ok (.jobj kvs))) := by
  have hne : lines ≠ [] := by
    intro h
    subst h
    simp at hfind
  have hget : get_holiday_data (strftimeYear dt) false (some (.ok (.jobj kvs))) fp
      = (.ok (tripsToJ lines), some (.ok (.jobj kvs))) := by
    simp [get_holiday_data, read_all_holiday, hkv]
  simp [is_holiday, hs, hget, tripsToJ, hne, holidayScan_eq_find dt lines hv, hfind]

/-- C5 witness: the cached National-Day suspension and the date
`2020-10-03`, which the first (and only) interval contains. -/
theorem C5_first_interval_decides_witness :
    is_holiday "2020-10-03"
        (some (.ok (.jobj [("2020", tripsToJ [("2020-10-01", "2020-10-08", false)])])))
        (.error "x")
      = (.ok true,
          some (.ok (.jobj [("2020", tripsToJ [("2020-10-01", "2020-10-08", false)])]))) :=
  C5_first_interval_decides "2020-10-03" ⟨2020, 10, 3⟩
    [("2020", tripsToJ [("2020-10-01", "2020-10-08", false)])] (.error "x")
    [("2020-10-01", "2020-10-08", false)] ("2020-10-01", "2020-10-08", false)
    rfl rfl (by decide) rfl

/-- C6: for a date whose year is cached (non-empty, well-formed) and which
no stored interval contains, `is_holiday` returns exactly the weekend test:
true iff the weekday is Saturday (5) or Sunday (6). -/
theorem C6_weekend_fallback (s : String) (dt : Date) (kvs : List (String × JValue))
    (fp : FetchParse) (lines : List HolidayTriple)
    (hs : strptimeIso s = some dt)
    (hkv : dictGet (strftimeYear dt) kvs = some (tripsToJ lines))
    (hv : ∀ t ∈ lines, validTriple t = true)
    (hne : lines ≠ [])
    (hnone : lines.find? (fun t => tripContains t dt) = none) :
    is_holiday s (some (.ok (.jobj kvs))) fp
      = (.ok (weekday dt == 5 || weekday dt == 6), some (.ok (.jobj kvs))) := by
  have hget : get_holiday_data (strftimeYear dt) false (some (.ok (.jobj kvs))) fp
      = (.ok (tripsToJ lines), some (.ok (.jobj kvs))) := by
    simp [get_holiday_data, read_all_holiday, hkv]
  cases hw : weekday dt == 5 || weekday dt == 6 with
  | true =>
    simp [is_holiday, hs, hget, tripsToJ, hne, holidayScan_eq_find dt lines hv, hnone, hw]
  | false =>
    simp [is_holiday, hs, hget, tripsToJ, hne, holidayScan_eq_find dt lines hv, hnone, hw]

/-- C6 witness: `2020-10-10` (a Saturday outside the cached interval) is a
holiday; the fallback fires with the weekend test true. -/
theorem C6_weekend_fallback_witness :
    is_holiday "2020-10-10"
        (some (.ok (.jobj [("2020", tripsToJ [("2020-10-01", "2020-10-08", false)])])))
        (.error "x")
      = (.ok true,
          some (.ok (.jobj [("2020", tripsToJ [("2020-10-01", "2020-10-08", false)])]))) :=
  C6_weekend_fallback "2020-10-10" ⟨2020, 10, 10⟩
    [("2020", tripsToJ [("2020-10-01", "2020-10-08", false)])] (.error "x")
    [("2020-10-01", "2020-10-08", false)]
    rfl rfl (by decide) (by decide) rfl

/-! ## Digit-string parsing lemmas (for the workday-run inheritance claim) -/

lemma not_mem_of_digits {l : List Char} (h : ∀ c ∈ l, c.isDigit = true)
    {c0 : Char} (h0 : c0.isDigit = false) : c0 ∉ l := by
  intro hm
  rw [h c0 hm] at h0
  exact Bool.noConfusion h0

lemma takeDigits_append (k : Nat) (ds rest : List Char)
    (hall : ∀ c ∈ ds, c.isDigit = true)
    (hlen : ds.length ≤ k)
    (hstop : ds.length = k ∨ ∀ c, rest.head? = some c → c.isDigit = false) :
    takeDigits k (ds ++ rest) = (ds, rest) := by
  induction ds generalizing k with
  | nil =>
    rcases hstop with h | h
    · simp only [List.length_nil] at h
      subst h
      rfl
    · cases k with
      | zero => rfl
      | succ k =>
        cases rest with
        | nil => rfl
        | cons c cs => simp [takeDigits, h c rfl]
  | cons a as ih =>
    cases k with
    | zero => simp at hlen
    | succ k =>
      have ha : a.isDigit = true := hall a (by simp)
      have hall' : ∀ c ∈ as, c.isDigit = true := fun c hc => hall c (by simp [hc])
      have hlen' : as.length ≤ k := by simpa using hlen
      have hstop' : as.length = k ∨ ∀ c, rest.head? = some c → c.isDigit = false := by
        rcases hstop with h | h
        · left; simpa using h
        · right; exact h
      simp [takeDigits, ha, ih k hall' hlen' hstop']

lemma exactDigits_append (n : Nat) (ds rest : List Char)
    (hall : ∀ c ∈ ds, c.isDigit = true) (hlen : ds.length = n) :
    exactDigits n (ds ++ rest) = some (digitsToNat ds, rest) := by
  simp [exactDigits, takeDigits_append n ds rest hall (le_of_eq hlen) (Or.inl hlen), hlen]

lemma oneTwoDigits_append (ds rest : List Char)
    (hall : ∀ c ∈ ds, c.isDigit = true)
    (h1 : 1 ≤ ds.length) (h2 : ds.length ≤ 2)
    (hstop : ds.length = 2 ∨ ∀ c, rest.head? = some c → c.isDigit = false) :
    oneTwoDigits (ds ++ rest) = some (digitsToNat ds, rest) := by
  have hne : ds.length ≠ 0 := by omega
  simp [oneTwoDigits, takeDigits_append 2 ds rest hall h2 hstop, hne]

/-- `strptime` with format `%Y年%m月%d日` on a string assembled from digit
components parses back those components (when the date is valid). -/
lemma strptimeCn_parts (s : String) (y mo dd : List Char)
    (hsdata : s.data = y ++ '年' :: (mo ++ '月' :: (dd ++ ['日'])))
    (hy : ∀ c ∈ y, c.isDigit = true) (hylen : y.length = 4)
    (hmo : ∀ c ∈ mo, c.isDigit = true) (hmo1 : 1 ≤ mo.length) (hmo2 : mo.length ≤ 2)
    (hdd : ∀ c ∈ dd, c.isDigit = true) (hdd1 : 1 ≤ dd.length) (hdd2 : dd.length ≤ 2)
    (hv : validDate ⟨digitsToNat y, digitsToNat mo, digitsToNat dd⟩ = true) :
    strptimeCn s = some ⟨digitsToNat y, digitsToNat mo, digitsToNat dd⟩ := by
  have hYear : ('年' : Char).isDigit = false := by decide
  have hMonth : ('月' : Char).isDigit = false := by decide
  have hDay : ('日' : Char).isDigit = false := by decide
  have h1 : exactDigits 4 (y ++ '年' :: (mo ++ '月' :: (dd ++ ['日'])))
      = some (digitsToNat y, '年' :: (mo ++ '月' :: (dd ++ ['日']))) :=
    exactDigits_append 4 y _ hy hylen
  have h2 : oneTwoDigits (mo ++ '月' :: (dd ++ ['日']))
      = some (digitsToNat mo, '月' :: (dd ++ ['日'])) := by
    refine oneTwoDigits_append mo _ hmo hmo1 hmo2 (Or.inr ?_)
    intro c hc
    simp only [List.head?_cons, Option.some.injEq] at hc
    subst hc
    exact hMonth
  have h3 : oneTwoDigits (dd ++ ['日']) = some (digitsToNat dd, ['日']) := by
    refine oneTwoDigits_append dd _ hdd hdd1 hdd2 (Or.inr ?_)
    intro c hc
    simp only [List.head?_cons, Option.some.injEq] at hc
    subst hc
    exact hDay
  simp [strptimeCn, hsdata, h1, h2, h3, expectChar, hv]

lemma bne_of_digit {c c0 : Char} (h : c.isDigit = true) (h0 : c0.isDigit = false) :
    (c != c0) = true := by
  cases hb : c == c0 with
  | false => simp [bne, hb]
  | true =>
    have := eq_of_beq hb
    subst this
    rw [h] at h0
    exact Bool.noConfusion h0

lemma takeWhile_digits_month (pm rest2 : List Char) (hpm : ∀ c ∈ pm, c.isDigit = true) :
    (pm ++ '月' :: rest2).takeWhile (fun c => c != '月') = pm := by
  induction pm with
  | nil => simp [List.takeWhile_cons]
  | cons a as ih =>
    have ha : a.isDigit = true := hpm a (by simp)
    simp [List.takeWhile_cons, bne_of_digit ha (by decide : ('月' : Char).isDigit = false),
      ih (fun c hc => hpm c (by simp [hc]))]

lemma takeWhile_year_month (py pm rest2 : List Char)
    (hpy : ∀ c ∈ py, c.isDigit = true) (hpm : ∀ c ∈ pm, c.isDigit = true) :
    (py ++ '年' :: (pm ++ '月' :: rest2)).takeWhile (fun c => c != '月')
      = py ++ '年' :: pm := by
  induction py with
  | nil =>
    simp only [List.nil_append]
    rw [List.takeWhile_cons]
    simp [takeWhile_digits_month pm rest2 hpm]
  | cons a as ih =>
    have ha : a.isDigit = true := hpy a (by simp)
    simp [List.takeWhile_cons, bne_of_digit ha (by decide : ('月' : Char).isDigit = false),
      ih (fun c hc => hpy c (by simp [hc]))]

/-- The stateful workday loop, run on the rendered tokens of well-formed day
mentions, computes exactly the reference inheritance fold `inheritYM`: a
mention with a month takes its own year or (when omitted) the notice year; a
mention without a month takes the full year-and-month pair of the preceding
completed mention. -/
lemma workdayFoldAux_inheritYM (noticeYear : String)
    (h4 : ∀ c ∈ noticeYear.data, c.isDigit = true) (h4len : noticeYear.data.length = 4) :
    ∀ (ms : List DayMention) (prev : Option (String × String)) (before : String),
      (prev = none ∧ before = "" ∨
        ∃ py pm pd : String, prev = some (py, pm) ∧
          (∀ c ∈ py.data, c.isDigit = true) ∧ py.data.length = 4 ∧
          (∀ c ∈ pm.data, c.isDigit = true) ∧ 1 ≤ pm.data.length ∧ pm.data.length ≤ 2 ∧
          (∀ c ∈ pd.data, c.isDigit = true) ∧
          before.data = py.data ++ '年' :: (pm.data ++ '月' :: (pd.data ++ ['日']))) →
      (∀ m ∈ ms, mentionWf m) →
      ∀ ymds, inheritYM noticeYear prev ms = some ymds →
        (∀ x ∈ ymds, validDate (ymdDate x) = true) →
        workdayFoldAux noticeYear before (ms.map renderMention) = .ok (ymds.map workTripOf) := by
  intro ms
  induction ms with
  | nil =>
    intro prev before _ _ ymds hspec _
    simp only [inheritYM, Option.some.injEq] at hspec
    subst hspec
    simp [workdayFoldAux]
  | cons m rest ih =>
    intro prev before hinv hwf ymds hspec hval
    obtain ⟨hwy, hwmo, hwdd, himp⟩ := hwf m (by simp)
    obtain ⟨hdl1, hdl2, hddig⟩ := hwdd
    cases hmp : m.monthPart with
    | some mo =>
      obtain ⟨hml1, hml2, hmdig⟩ := hwmo mo hmp
      cases hyp : m.yearPart with
      | some yv =>
        obtain ⟨hyl1, hyl2, hydig⟩ := hwy yv hyp
        have hylen : yv.data.length = 4 := le_antisymm hyl2 hyl1
        simp only [inheritYM, hmp, hyp, Option.getD_some] at hspec
        rw [Option.map_eq_some'] at hspec
        obtain ⟨l, hrec, hymds⟩ := hspec
        subst hymds
        have hr : (renderMention m).data
            = yv.data ++ '年' :: (mo.data ++ '月' :: (m.dayPart.data ++ ['日'])) := by
          simp [renderMention, hyp, hmp, String.data_append]
        have hmemM : '月' ∈ (renderMention m).data := by
          rw [hr]; simp
        have hmemY : '年' ∈ (renderMention m).data := by
          rw [hr]; simp
        have hparse : strptimeCn (renderMention m) = some (ymdDate (yv, mo, m.dayPart)) :=
          strptimeCn_parts _ yv.data mo.data m.dayPart.data hr hydig hylen
            hmdig hml1 hml2 hddig hdl1 hdl2 (hval (yv, mo, m.dayPart) (by simp))
        have hrest := ih (some (yv, mo)) (renderMention m)
          (Or.inr ⟨yv, mo, m.dayPart, rfl, hydig, hylen, hmdig, hml1, hml2, hddig, hr⟩)
          (fun x hx => hwf x (by simp [hx])) l hrec
          (fun x hx => hval x (by simp [hx]))
        simp [workdayFoldAux, hmemM, hmemY, hparse, hrest, workTripOf]
      | none =>
        simp only [inheritYM, hmp, hyp, Option.getD_none] at hspec
        rw [Option.map_eq_some'] at hspec
        obtain ⟨l, hrec, hymds⟩ := hspec
        subst hymds
        have hr : (renderMention m).data
            = mo.data ++ '月' :: (m.dayPart.data ++ ['日']) := by
          simp [renderMention, hyp, hmp, String.data_append]
        have hmemM : '月' ∈ (renderMention m).data := by
          rw [hr]; simp
        have hnY : ¬ '年' ∈ (renderMention m).data := by
          rw [hr]
          simp [not_mem_of_digits hmdig (by decide : ('年' : Char).isDigit = false),
            not_mem_of_digits hddig (by decide : ('年' : Char).isDigit = false),
            (by decide : ('年' : Char) ≠ '月'), (by decide : ('年' : Char) ≠ '日')]
        have hw2 : (noticeYear ++ "年" ++ renderMention m).data
            = noticeYear.data ++ '年' :: (mo.data ++ '月' :: (m.dayPart.data ++ ['日'])) := by
          simp [String.data_append, hr]
        have hparse : strptimeCn (noticeYear ++ "年" ++ renderMention m)
            = some (ymdDate (noticeYear, mo, m.dayPart)) :=
          strptimeCn_parts _ noticeYear.data mo.data m.dayPart.data hw2 h4 h4len
            hmdig hml1 hml2 hddig hdl1 hdl2 (hval (noticeYear, mo, m.dayPart) (by simp))
        have hrest := ih (some (noticeYear, mo)) (noticeYear ++ "年" ++ renderMention m)
          (Or.inr ⟨noticeYear, mo, m.dayPart, rfl, h4, h4len, hmdig, hml1, hml2, hddig, hw2⟩)
          (fun x hx => hwf x (by simp [hx])) l hrec
          (fun x hx => hval x (by simp [hx]))
        simp [workdayFoldAux, hmemM, hnY, hparse, hrest, workTripOf]
    | none =>
      have hyp : m.yearPart = none := by
        cases hyp : m.yearPart with
        | none => rfl
        | some yv =>
          have := himp (by simp [hyp])
          simp [hmp] at this
      rcases hinv with ⟨hpn, hbe⟩ | ⟨py, pm, pd, hprev, hpydig, hpylen, hpmdig, hpm1, hpm2, hpddig, hbdata⟩
      · subst hpn
        simp [inheritYM, hmp] at hspec
      · subst hprev
        simp only [inheritYM, hmp] at hspec
        rw [Option.map_eq_some'] at hspec
        obtain ⟨l, hrec, hymds⟩ := hspec
        subst hymds
        have hr : (renderMention m).data = m.dayPart.data ++ ['日'] := by
          simp [renderMention, hyp, hmp, String.data_append]
        have hnM : ¬ '月' ∈ (renderMention m).data := by
          rw [hr]
          simp [not_mem_of_digits hddig (by decide : ('月' : Char).isDigit = false),
            (by decide : ('月' : Char) ≠ '日')]
        have hpre : beforeUpToMonth before
            = some (String.mk (py.data ++ '年' :: (pm.data ++ ['月']))) := by
          simp only [beforeUpToMonth, hbdata]
          rw [takeWhile_year_month py.data pm.data _ hpydig hpmdig]
          simp
        have hw1 : (String.mk (py.data ++ '年' :: (pm.data ++ ['月'])) ++ renderMention m).data
            = py.data ++ '年' :: (pm.data ++ '月' :: (m.dayPart.data ++ ['日'])) := by
          simp [String.data_append, hr]
        have hmemY : '年' ∈ (String.mk (py.data ++ '年' :: (pm.data ++ ['月']))
            ++ renderMention m).data := by
          rw [hw1]; simp
        have hparse : strptimeCn (String.mk (py.data ++ '年' :: (pm.data ++ ['月']))
              ++ renderMention m)
            = some (ymdDate (py, pm, m.dayPart)) :=
          strptimeCn_parts _ py.data pm.data m.dayPart.data hw1 hpydig hpylen
            hpmdig hpm1 hpm2 hddig hdl1 hdl2 (hval (py, pm, m.dayPart) (by simp))
        have hrest := ih (some (py, pm))
          (String.mk (py.data ++ '年' :: (pm.data ++ ['月'])) ++ renderMention m)
          (Or.inr ⟨py, pm, m.dayPart, rfl, hpydig, hpylen, hpmdig, hpm1, hpm2, hddig, hw1⟩)
          (fun x hx => hwf x (by simp [hx])) l hrec
          (fun x hx => hval x (by simp [hx]))
        simp [workdayFoldAux, hnM, hpre, hmemY, hparse, hrest, workTripOf]

/-- C4 counterexample: in the run `2021年1月19日、26日` with notice year
`2020`, the day mention `26日` omits its year (and month), yet the code
emits `2021-01-26` — the year is inherited from the preceding mention's
completed date, NOT defaulted to the notice's year `2020`. -/
theorem C4_counterexample :
    findallDayTokens ("2021年1月19日、26日".data.length) none "2021年1月19日、26日".data
      = ["2021年1月19日", "26日"] ∧
    ("26日" : String).data.contains '年' = false ∧
    parseLine "2020" "2021年1月19日、26日上班。"
      = .ok [("2021-01-19", "2021-01-19", true), ("2021-01-26", "2021-01-26", true)] ∧
    ("2021-01-26" : String) ≠ ("2020-01-26" : String) :=
  ⟨rfl, rfl, rfl, by decide⟩

/-- C4 (amended): in a compensating-workday run, a day mention that omits
its month inherits the year-and-month pair of the most recently preceding
completed day mention (so also that mention's year, which need not be the
notice's); a day mention that has a month but omits its year gets the
notice's year.  Stated as: the stateful loop on the rendered tokens
computes the reference fold `inheritYM`. -/
theorem C4_run_inheritance (noticeYear : String) (hy : digitStr noticeYear 4 4)
    (ms : List DayMention) (hwf : ∀ m ∈ ms, mentionWf m)
    (ymds : List (String × String × String))
    (hspec : inheritYM noticeYear none ms = some ymds)
    (hval : ∀ x ∈ ymds, validDate (ymdDate x) = true) :
    workdayFoldAux noticeYear "" (ms.map renderMention) = .ok (ymds.map workTripOf) := by
  obtain ⟨h1, h2, h3⟩ := hy
  exact workdayFoldAux_inheritYM noticeYear h3 (le_antisymm h2 h1) ms none ""
    (Or.inl ⟨rfl, rfl⟩) hwf ymds hspec hval

/-- C4 witness: the run `1月19日、26日` under notice year `2020`; the second
mention inherits year and month `2020`/`1` from the first. -/
theorem C4_run_inheritance_witness :
    workdayFoldAux "2020" ""
        (([⟨none, some "1", "19"⟩, ⟨none, none, "26"⟩] : List DayMention).map renderMention)
      = .ok (([("2020", "1", "19"), ("2020", "1", "26")] :
          List (String × String × String)).map workTripOf) := by
  refine C4_run_inheritance "2020" (by refine ⟨?_, ?_, ?_⟩ <;> decide)
    [⟨none, some "1", "19"⟩, ⟨none, none, "26"⟩] ?_
    [("2020", "1", "19"), ("2020", "1", "26")] rfl (by decide)
  intro m hm
  rcases List.mem_cons.mp hm with h | h
  · subst h
    exact ⟨fun y hy => Option.noConfusion hy,
      fun mo hmo => by cases hmo; exact ⟨by decide, by decide, by decide⟩,
      ⟨by decide, by decide, by decide⟩,
    fun h => by simp at h⟩
  · rcases List.mem_cons.mp h with h1 | h1
    · subst h1
      exact ⟨fun y hy => Option.noConfusion hy,
        fun mo hmo => Option.noConfusion hmo,
        ⟨by decide, by decide, by decide⟩,
        fun h => by simp at h⟩
    · cases h1

end ChineseHoliday
